import Mathlib

/-!
Verification of the "Ecos de México" media-generation pipeline.

The repository is a set of near-duplicate single-page applications whose
core logic is: a binary 16-bit PCM audio decoder, a best-effort JSON
scenario parser, a speech-transcript assembler with a two-voice
configuration, an orchestrator that launches audio and portrait calls
concurrently and merges results into shared state, a bounded deduplicated
recent-history list, and a rate-limited chat handler.  Each definition
below is a shallow embedding of the corresponding source function;
theorems settle the frozen claims about them.
-/

namespace Ecos

/-! ## Data model (types shared by all variants, src/types.ts and App.tsx) -/

structure Source where
  title : String
  uri : String
deriving DecidableEq

structure Character where
  name : String
  gender : String
  voice : String
  visualDescription : String
  bio : String
  avatarUrl : Option String := none
deriving DecidableEq

structure DialogueLine where
  speaker : String
  text : String
  translation : String
deriving DecidableEq

structure HistoricalScenario where
  id : String
  timestamp : Int
  locationInput : String
  dateInput : String
  context : String
  narratorIntro : String
  accentProfile : String
  characters : List Character
  script : List DialogueLine
  sources : List Source
deriving DecidableEq

/-! ## Binary audio decoder (App.tsx `decodeAudioToBuffer`)

The source reinterprets the byte buffer as an `Int16Array` of
`byteLength / 2` little-endian elements (the fractional length of an odd
buffer is truncated by the typed-array constructor) and divides each
element by 32768.0.  Bytes are modelled as naturals below 256 and samples
as rationals. -/

/-- One signed 16-bit little-endian value from a low and a high byte. -/
def toInt16 (lo hi : Nat) : Int :=
  if lo + 256 * hi < 32768 then (lo + 256 * hi : Int) else (lo + 256 * hi : Int) - 65536

/-- The byte buffer as a sequence of signed 16-bit little-endian values;
a trailing unpaired byte is dropped, matching the truncated
`byteLength / 2` element count of the source's `Int16Array` view. -/
def bytesToInt16 : List Nat → List Int
  | lo :: hi :: rest => toInt16 lo hi :: bytesToInt16 rest
  | _ => []

/-- `decodeAudioToBuffer`: every 16-bit value divided by 32768.0. -/
def decodeAudioToBuffer (data : List Nat) : List ℚ :=
  (bytesToInt16 data).map (fun v : Int => (v : ℚ) / 32768)

/-! ## Scenario parser (App.tsx `extractJSON`)

The source matches the greedy regular expression over the raw text — the
substring from the first opening brace to the last closing brace — and
hands it to the platform JSON parser; on any failure it throws one fixed
error message.  No schema validation is performed.  The platform JSON
parser (an external built-in, not repository code) is modelled by a
standard fuel-bounded JSON grammar below. -/

inductive Json where
  | null : Json
  | bool : Bool → Json
  | num : ℚ → Json
  | str : String → Json
  | arr : List Json → Json
  | obj : List (String × Json) → Json

/-- Field lookup on a parsed object; with duplicate keys the last
occurrence wins, as in the platform parser.  Non-objects have no fields. -/
def Json.getField : Json → String → Option Json
  | .obj fields, k => (fields.reverse.find? (fun p => p.1 == k)).map (fun p => p.2)
  | _, _ => none

/-- JSON insignificant whitespace. -/
def skipWs : List Char → List Char
  | c :: rest =>
    if c = ' ' ∨ c = '\t' ∨ c = '\n' ∨ c = '\r' then skipWs rest else c :: rest
  | [] => []

def hexVal (c : Char) : Option Nat :=
  if '0' ≤ c ∧ c ≤ '9' then some (c.toNat - 48)
  else if 'a' ≤ c ∧ c ≤ 'f' then some (c.toNat - 87)
  else if 'A' ≤ c ∧ c ≤ 'F' then some (c.toNat - 55)
  else none

/-- The body of a JSON string after its opening quote: the decoded
characters and the input following the closing quote. -/
def parseStringChars : List Char → Option (List Char × List Char)
  | [] => none
  | '"' :: rest => some ([], rest)
  | '\\' :: esc =>
    match esc with
    | '"' :: r => (parseStringChars r).map (fun p => ('"' :: p.1, p.2))
    | '\\' :: r => (parseStringChars r).map (fun p => ('\\' :: p.1, p.2))
    | '/' :: r => (parseStringChars r).map (fun p => ('/' :: p.1, p.2))
    | 'n' :: r => (parseStringChars r).map (fun p => ('\n' :: p.1, p.2))
    | 't' :: r => (parseStringChars r).map (fun p => ('\t' :: p.1, p.2))
    | 'r' :: r => (parseStringChars r).map (fun p => ('\r' :: p.1, p.2))
    | 'b' :: r => (parseStringChars r).map (fun p => (Char.ofNat 8 :: p.1, p.2))
    | 'f' :: r => (parseStringChars r).map (fun p => (Char.ofNat 12 :: p.1, p.2))
    | 'u' :: a :: b :: c :: d :: r =>
      match hexVal a, hexVal b, hexVal c, hexVal d with
      | some x, some y, some z, some w =>
        (parseStringChars r).map
          (fun p => (Char.ofNat (((x * 16 + y) * 16 + z) * 16 + w) :: p.1, p.2))
      | _, _, _, _ => none
    | _ => none
  | c :: rest =>
    if c.toNat < 32 then none
    else (parseStringChars rest).map (fun p => (c :: p.1, p.2))

/-- A maximal run of decimal digits and the rest of the input. -/
def parseDigits : List Char → List Nat × List Char
  | c :: rest =>
    if '0' ≤ c ∧ c ≤ '9' then
      let p := parseDigits rest
      ((c.toNat - 48) :: p.1, p.2)
    else ([], c :: rest)
  | [] => ([], [])

def natFromDigits (ds : List Nat) : Nat :=
  ds.foldl (fun a d => 10 * a + d) 0

/-- Optional fractional part of a JSON number. -/
def parseFrac : List Char → Option (ℚ × List Char)
  | '.' :: r =>
    match parseDigits r with
    | ([], _) => none
    | (ds, rest) => some ((natFromDigits ds : ℚ) / (10 : ℚ) ^ ds.length, rest)
  | s => some (0, s)

/-- Optional exponent of a JSON number, as a multiplier. -/
def parseExp : List Char → Option (ℚ × List Char)
  | c :: r =>
    if c = 'e' ∨ c = 'E' then
      let sgn : Int × List Char :=
        match r with
        | '+' :: r2 => (1, r2)
        | '-' :: r2 => (-1, r2)
        | _ => (1, r)
      match parseDigits sgn.2 with
      | ([], _) => none
      | (ds, rest) => some ((10 : ℚ) ^ (sgn.1 * (natFromDigits ds : Int)), rest)
    else some (1, c :: r)
  | [] => some (1, [])

def parseNumber (s : List Char) : Option (Json × List Char) :=
  let signed : Bool × List Char :=
    match s with
    | '-' :: r => (true, r)
    | _ => (false, s)
  match parseDigits signed.2 with
  | ([], _) => none
  | (ds, s2) =>
    if 1 < ds.length ∧ ds.head? = some 0 then none
    else
      match parseFrac s2 with
      | none => none
      | some (fr, s3) =>
        match parseExp s3 with
        | none => none
        | some (mult, s4) =>
          let mag : ℚ := ((natFromDigits ds : ℚ) + fr) * mult
          some (.num (if signed.1 then -mag else mag), s4)

mutual

/-- A JSON value, with fuel bounding the recursion depth. -/
def parseValue : Nat → List Char → Option (Json × List Char)
  | 0, _ => none
  | fuel + 1, s =>
    match skipWs s with
    | 'n' :: 'u' :: 'l' :: 'l' :: rest => some (.null, rest)
    | 't' :: 'r' :: 'u' :: 'e' :: rest => some (.bool true, rest)
    | 'f' :: 'a' :: 'l' :: 's' :: 'e' :: rest => some (.bool false, rest)
    | '"' :: rest =>
      match parseStringChars rest with
      | some (cs, rem) => some (.str (String.mk cs), rem)
      | none => none
    | '[' :: rest =>
      (match skipWs rest with
       | ']' :: r => some (.arr [], r)
       | r =>
         match parseElems fuel r with
         | some (xs, rem) => some (.arr xs, rem)
         | none => none)
    | '{' :: rest =>
      (match skipWs rest with
       | '}' :: r => some (.obj [], r)
       | r =>
         match parseMembers fuel r with
         | some (fs, rem) => some (.obj fs, rem)
         | none => none)
    | rest => parseNumber rest

/-- One or more comma-separated array elements up to the closing bracket. -/
def parseElems : Nat → List Char → Option (List Json × List Char)
  | 0, _ => none
  | fuel + 1, s =>
    match parseValue fuel s with
    | none => none
    | some (v, rest) =>
      match skipWs rest with
      | ',' :: r =>
        (match parseElems fuel r with
         | some (xs, rem) => some (v :: xs, rem)
         | none => none)
      | ']' :: r => some ([v], r)
      | _ => none

/-- One or more comma-separated object members up to the closing brace. -/
def parseMembers : Nat → List Char → Option (List (String × Json) × List Char)
  | 0, _ => none
  | fuel + 1, s =>
    match skipWs s with
    | '"' :: rest =>
      (match parseStringChars rest with
       | none => none
       | some (key, r1) =>
         match skipWs r1 with
         | ':' :: r2 =>
           (match parseValue fuel r2 with
            | none => none
            | some (v, r3) =>
              match skipWs r3 with
              | ',' :: r4 =>
                (match parseMembers fuel r4 with
                 | some (fs, rem) => some ((String.mk key, v) :: fs, rem)
                 | none => none)
              | '}' :: r4 => some ([(String.mk key, v)], r4)
              | _ => none)
         | _ => none)
    | _ => none

end

/-- The platform JSON parser: a complete value with nothing but
whitespace after it. -/
def parseJson (s : List Char) : Option Json :=
  match parseValue (2 * s.length + 2) s with
  | some (j, rest) => if skipWs rest = [] then some j else none
  | none => none

/-- The span the source's greedy regular expression extracts: from the
first opening brace to the last closing brace, when that span is
non-degenerate. -/
def braceSlice (s : List Char) : Option (List Char) :=
  match s.findIdx? (fun c => c = '{'), s.reverse.findIdx? (fun c => c = '}') with
  | some p, some r =>
    let q := s.length - 1 - r
    if p < q then some ((s.drop p).take (q - p + 1)) else none
  | _, _ => none

/-- `extractJSON` (App.tsx): slice the brace span out of the raw text and
parse it; both failure modes surface as the same thrown message. -/
def extractJSON (text : String) : Except String Json :=
  match braceSlice text.toList with
  | none => .error "Error en el formato de la crónica."
  | some sub =>
    match parseJson sub with
    | some j => .ok j
    | none => .error "Error en el formato de la crónica."

/-- `researchHistory`'s result construction: the parsed object spread
first, then the stamped fields, so the stamped keys override parsed ones
and every other parsed field passes through unchecked. -/
def researchScenarioJson (parsed : Json) (srcs idv ts loc dt : Json) : Json :=
  match parsed with
  | .obj fs =>
    .obj (fs ++ [("sources", srcs), ("id", idv), ("timestamp", ts),
                 ("locationInput", loc), ("dateInput", dt)])
  | j => j

/-! ## Speech-synthesis transcript assembly

`generateAudio` in the second App.tsx variant resolves each script line's
speaker with `findIndex` over the characters, replaces a missed lookup
(`-1`) by `0`, and tags the line `Speaker<idx>`.  The part_000 variant
builds `Char<idx>` tags the same way after a fixed narrator slot. -/

/-- `charIdx === -1 ? 0 : charIdx`: the voice-slot index of a script
line's speaker, defaulting to 0 when no character name matches. -/
def safeIdx (chars : List Character) (sp : String) : Nat :=
  match chars.findIdx? (fun c => c.name == sp) with
  | some i => i
  | none => 0

/-- The slot index assigned to each script line, in script order. -/
def transcriptSlots (chars : List Character) (script : List DialogueLine) : List Nat :=
  script.map (fun line => safeIdx chars line.speaker)

/-- The `ttsText` string of the second App.tsx variant: a narrator intro
on slot 0 followed by every line tagged with its resolved slot. -/
def ttsTextApp (sc : HistoricalScenario) : String :=
  sc.script.foldl
    (fun acc line =>
      acc ++ "Speaker" ++ toString (safeIdx sc.characters line.speaker) ++ ": "
        ++ line.text ++ "\n")
    ("Speaker0: " ++ sc.narratorIntro ++ "\n\n")

/-- The `ttsText` string of the part_000 variant (`Narrador` +
`Char<idx>` tags), assembled the same way. -/
def ttsText000 (sc : HistoricalScenario) : String :=
  sc.script.foldl
    (fun acc line =>
      acc ++ "Char" ++ toString (safeIdx sc.characters line.speaker) ++ ": "
        ++ line.text ++ "\n")
    ("Narrador: " ++ sc.narratorIntro ++ "\n\n")

structure VoiceConfig where
  speaker : String
  voiceName : String
deriving DecidableEq

/-- part_000 `speakerVoiceConfigs`: a fixed narrator entry followed by one
entry per character of the first two. -/
def speakerVoiceConfigs000 (chars : List Character) : List VoiceConfig :=
  ⟨"Narrador", "charon"⟩ ::
    (chars.take 2).enum.map (fun p => ⟨"Char" ++ toString p.1, p.2.voice.toLower⟩)

/-- Second App.tsx variant `speakerVoiceConfigs`: one entry per character
of the first two, topped up once with a default voice when fewer than two
characters exist. -/
def speakerVoiceConfigsApp (chars : List Character) : List VoiceConfig :=
  let cfgs := (chars.take 2).enum.map
    (fun p => ⟨"Speaker" ++ toString p.1, p.2.voice.toLower⟩)
  if cfgs.length < 2 then cfgs ++ [⟨"Speaker1", "zephyr"⟩] else cfgs

/-- part_001's name map: characters are inserted in order, so a duplicate
name resolves to its last index; lookup of an absent name yields none. -/
def lastNameIdx (chars : List Character) (sp : String) : Option Nat :=
  match chars.reverse.findIdx? (fun c => c.name == sp) with
  | some r => some (chars.length - 1 - r)
  | none => none

/-- part_001 `charToSafeName.get(line.speaker) || "Speaker A"`. -/
def safeNameP1 (chars : List Character) (sp : String) : String :=
  match lastNameIdx chars sp with
  | some i => "Speaker " ++ String.singleton (Char.ofNat (65 + i))
  | none => "Speaker A"

/-! ## Pipeline orchestrator (`handleSearch`)

The React state touched by the pipeline is `loading`, `scenario`, `audio`
and `error`.  A run is modelled as a trace of state-setting events; the
settlement order of the concurrently launched media calls is an arbitrary
list of completion events, each applying the source's `.then` callback.
part_000 awaits `Promise.allSettled` over every media promise before
setting `loading` back to idle; the first App.tsx variant sets it idle
synchronously right after launching the calls. -/

abbrev AudioBuf := List ℚ

inductive MediaEvent where
  | audioDone : Option AudioBuf → MediaEvent
  | portraitDone : Nat → Option String → MediaEvent
deriving DecidableEq

structure AppState where
  loading : String
  scenario : Option HistoricalScenario
  audio : Option AudioBuf
  error : Option String
deriving DecidableEq

/-- The avatar patch at one index: `newChars[i] = { ...newChars[i],
avatarUrl: url }` on a copy of the array. -/
def setAvatarAt : List Character → Nat → String → List Character
  | [], _, _ => []
  | c :: rest, 0, url => { c with avatarUrl := some url } :: rest
  | c :: rest, n + 1, url => c :: setAvatarAt rest n url

/-- The functional `setScenario` update run when portrait `i` resolves:
only `characters[i].avatarUrl` changes. -/
def patchAvatar (sc : HistoricalScenario) (i : Nat) (url : String) : HistoricalScenario :=
  { sc with characters := setAvatarAt sc.characters i url }

/-- One media completion callback applied to the current state: audio
success fills the audio slot, a resolved portrait patches the visible
scenario (skipped when none is displayed), failures change nothing. -/
def applyMedia (s : AppState) : MediaEvent → AppState
  | .audioDone (some buf) => { s with audio := some buf }
  | .audioDone none => s
  | .portraitDone i (some url) =>
    match s.scenario with
    | none => s
    | some sc => { s with scenario := some (patchAvatar sc i url) }
  | .portraitDone _ none => s

inductive TraceEv where
  | setLoading : String → TraceEv
  | setScenario : Option HistoricalScenario → TraceEv
  | setAudio : Option AudioBuf → TraceEv
  | setError : Option String → TraceEv
  | settle : MediaEvent → TraceEv
deriving DecidableEq

def applyTraceEv (s : AppState) : TraceEv → AppState
  | .setLoading v => { s with loading := v }
  | .setScenario v => { s with scenario := v }
  | .setAudio v => { s with audio := v }
  | .setError v => { s with error := v }
  | .settle e => applyMedia s e

def runTrace (s : AppState) (t : List TraceEv) : AppState :=
  t.foldl applyTraceEv s

/-- The synchronous prologue shared by every `handleSearch`: clear all
previous state and enter the busy phase. -/
def clearEvents : List TraceEv :=
  [.setLoading "busy", .setError none, .setScenario none, .setAudio none]

/-- The full set of media completions of one run: the single audio call
and one portrait call per entry of `urls`. -/
def mediaEvents (audioRes : Option AudioBuf) (urls : List (Option String)) :
    List MediaEvent :=
  .audioDone audioRes :: urls.enum.map (fun p => .portraitDone p.1 p.2)

/-- part_000 `handleSearch` as a trace: on research success the scenario
becomes visible, the media phase starts, every launched call settles (in
an arbitrary order), and only then is loading set back to idle; on
research failure a fixed error is shown. -/
def part000Trace (research : Except String HistoricalScenario)
    (order : List MediaEvent) : List TraceEv :=
  clearEvents ++
    match research with
    | .error _ =>
      [.setError (some "La frecuencia histórica es inestable. Asegúrate de que el lugar sea válido en México."),
       .setLoading "idle"]
    | .ok data =>
      [.setScenario (some data), .setLoading "media"] ++
        order.map .settle ++ [.setLoading "idle"]

/-- First App.tsx variant `handleSearch` as a trace: after research
success the media calls are launched fire-and-forget and loading returns
to idle within the same synchronous block, so every settlement lands
after the idle transition. -/
def appTrace (research : Except String HistoricalScenario)
    (order : List MediaEvent) : List TraceEv :=
  clearEvents ++
    match research with
    | .error e => [.setError (some e), .setLoading "idle"]
    | .ok data =>
      [.setScenario (some data), .setLoading "media", .setLoading "idle"] ++
        order.map .settle

/-- Two overlapping App.tsx runs: query Q1's synchronous part runs, then —
with Q1's media still pending — query Q2's synchronous part, and finally
Q1's late media callbacks fire against the now-visible state.  No
generation token or request-identity check guards those callbacks. -/
def staleRun (q1 q2 : HistoricalScenario) (q1Late : List MediaEvent)
    (s0 : AppState) : AppState :=
  let s1 := runTrace s0 (appTrace (.ok q1) [])
  let s2 := runTrace s1 (appTrace (.ok q2) [])
  q1Late.foldl applyMedia s2

/-! ## Recent-history list (App.tsx `handleSearch`) -/

/-- `[data, ...history.filter(h => h.locationInput !== loc)].slice(0, 5)`. -/
def updateHistory (data : HistoricalScenario) (loc : String)
    (history : List HistoricalScenario) : List HistoricalScenario :=
  (data :: history.filter (fun h => h.locationInput ≠ loc)).take 5

/-! ## Chat rate limit (part_002 / part_003 `handleSendMessage`) -/

structure ChatState where
  messageCount : Nat
  currentInput : String
  selectedFigure : Option String
  chatHistory : List String
deriving DecidableEq

/-- The guard `!currentInput || messageCount >= 5 || !selectedFigure`. -/
def sendBlocked (s : ChatState) : Bool :=
  s.currentInput == "" || decide (5 ≤ s.messageCount) || s.selectedFigure.isNone

/-- `handleSendMessage`'s synchronous part: when not blocked, append the
user message, clear the input and increment the count by one. -/
def handleSendMessage (s : ChatState) : ChatState :=
  if sendBlocked s then s
  else
    { s with
      chatHistory := s.chatHistory ++ [s.currentInput]
      currentInput := ""
      messageCount := s.messageCount + 1 }

inductive ChatAction where
  | typeInput : String → ChatAction
  | selectFigure : Option String → ChatAction
  | clearChat : ChatAction
  | send : ChatAction
deriving DecidableEq

/-- The chat state after `resetAllStates`. -/
def resetChatState : ChatState :=
  { messageCount := 0, currentInput := "", selectedFigure := none, chatHistory := [] }

def chatStep (s : ChatState) : ChatAction → ChatState
  | .typeInput t => { s with currentInput := t }
  | .selectFigure f => { s with selectedFigure := f }
  | .clearChat => { s with chatHistory := [] }
  | .send => handleSendMessage s

def chatRun (s : ChatState) (acts : List ChatAction) : ChatState :=
  acts.foldl chatStep s

/-- How many of the actions are sends that pass the guard. -/
def sendCount : ChatState → List ChatAction → Nat
  | _, [] => 0
  | s, a :: rest =>
    (if a = ChatAction.send ∧ sendBlocked s = false then 1 else 0)
      + sendCount (chatStep s a) rest

/-! ## Concrete values used by counterexamples and witnesses -/

def chA : Character :=
  { name := "Ana", gender := "female", voice := "Kore", visualDescription := "a", bio := "a" }

def chB : Character :=
  { name := "Beto", gender := "male", voice := "Charon", visualDescription := "b", bio := "b" }

def chC : Character :=
  { name := "Carmen", gender := "female", voice := "Aoede", visualDescription := "c", bio := "c" }

def lineC : DialogueLine :=
  { speaker := "Carmen", text := "hola", translation := "hola" }

def mkScenario (loc : String) (chars : List Character) (script : List DialogueLine) :
    HistoricalScenario :=
  { id := loc, timestamp := 0, locationInput := loc, dateInput := "1850",
    context := "ctx " ++ loc, narratorIntro := "intro", accentProfile := "acc",
    characters := chars, script := script, sources := [] }

def exQ1 : HistoricalScenario := mkScenario "Q1" [chA, chB] []

def exQ2 : HistoricalScenario := mkScenario "Q2" [chB, chC] []

def exScenario3 : HistoricalScenario := mkScenario "Puebla" [chA, chB, chC] [lineC]

def idleState : AppState :=
  { loading := "idle", scenario := none, audio := none, error := none }

/-! ## Helper lemmas: audio decoder -/

theorem bytesToInt16_length : ∀ l : List Nat, (bytesToInt16 l).length = l.length / 2
  | [] => rfl
  | [_] => by simp [bytesToInt16]
  | _ :: _ :: rest => by
    simp only [bytesToInt16, List.length_cons, bytesToInt16_length rest]
    omega

theorem bytesToInt16_getElem? : ∀ (l : List Nat) (i lo hi : Nat),
    l[2 * i]? = some lo → l[2 * i + 1]? = some hi →
    (bytesToInt16 l)[i]? = some (toInt16 lo hi)
  | [], _, _, _, h1, _ => by simp at h1
  | [a], i, _, _, h1, h2 => by
    cases i with
    | zero => simp at h2
    | succ j =>
      rw [show 2 * (j + 1) = 2 * j + 1 + 1 from by ring] at h1
      simp at h1
  | a :: b :: rest, i, lo, hi, h1, h2 => by
    cases i with
    | zero =>
      simp only [Nat.mul_zero, List.getElem?_cons_zero, Nat.zero_add,
        List.getElem?_cons_succ, Option.some.injEq] at h1 h2
      subst h1; subst h2
      simp [bytesToInt16]
    | succ j =>
      rw [show 2 * (j + 1) = 2 * j + 1 + 1 from by ring] at h1
      rw [show 2 * (j + 1) + 1 = 2 * j + 1 + 1 + 1 from by ring] at h2
      simp only [List.getElem?_cons_succ] at h1 h2
      simpa [bytesToInt16] using bytesToInt16_getElem? rest j lo hi h1 h2

theorem bytesToInt16_take : ∀ (l : List Nat) (k : Nat), l.length = 2 * k + 1 →
    bytesToInt16 l = bytesToInt16 (l.take (2 * k))
  | [], k, h => by simp at h
  | [a], k, h => by
    have hk : k = 0 := by simp at h; omega
    subst hk
    rfl
  | a :: b :: rest, k, h => by
    obtain ⟨m, rfl⟩ : ∃ m, k = m + 1 := by
      cases k with
      | zero => simp at h
      | succ m => exact ⟨m, rfl⟩
    have hrest : rest.length = 2 * m + 1 := by simp at h; omega
    rw [show 2 * (m + 1) = 2 * m + 1 + 1 from by ring]
    simp only [List.take_succ_cons, bytesToInt16]
    rw [bytesToInt16_take rest m hrest]

theorem toInt16_bounds (lo hi : Nat) (hlo : lo < 256) (hhi : hi < 256) :
    -32768 ≤ toInt16 lo hi ∧ toInt16 lo hi < 32768 := by
  unfold toInt16
  split <;> omega

theorem bytesToInt16_mem : ∀ (l : List Nat), (∀ b ∈ l, b < 256) →
    ∀ v ∈ bytesToInt16 l, -32768 ≤ v ∧ v < 32768
  | [], _, v, hv => by simp [bytesToInt16] at hv
  | [a], _, v, hv => by simp [bytesToInt16] at hv
  | lo :: hi :: rest, hb, v, hv => by
    simp only [bytesToInt16, List.mem_cons] at hv
    rcases hv with rfl | hv
    · exact toInt16_bounds lo hi (hb lo (by simp)) (hb hi (by simp))
    · exact bytesToInt16_mem rest (fun b hbm => hb b (by simp [hbm])) v hv

theorem sample_range (v : Int) (h1 : -32768 ≤ v) (h2 : v < 32768) :
    (-1 : ℚ) ≤ (v : ℚ) / 32768 ∧ (v : ℚ) / 32768 < 1 := by
  constructor
  · rw [le_div_iff₀ (by norm_num : (0 : ℚ) < 32768)]
    have : (-32768 : ℚ) ≤ (v : ℚ) := by exact_mod_cast h1
    linarith
  · rw [div_lt_one (by norm_num : (0 : ℚ) < 32768)]
    exact_mod_cast h2

/-! ## Claims C1 and C2 -/

/-- C1: for every byte buffer of even length `2 * N`, `decodeAudioToBuffer`
yields exactly `N` samples, the `i`-th sample is the `i`-th signed 16-bit
little-endian value divided by 32768 (exactly, hence within any positive
tolerance), every sample lies in `[-1, 1)`, and the example bytes
`[0x00, 0x00, 0xFF, 0x7F, 0x00, 0x80]` decode to `[0, 32767/32768, -1]`. -/
theorem decoder_even_buffer_spec (data : List Nat) (N : Nat)
    (hlen : data.length = 2 * N) (hbytes : ∀ b ∈ data, b < 256) :
    (decodeAudioToBuffer data).length = N
    ∧ (∀ i lo hi, data[2 * i]? = some lo → data[2 * i + 1]? = some hi →
        (decodeAudioToBuffer data)[i]? = some ((toInt16 lo hi : ℚ) / 32768))
    ∧ (∀ q ∈ decodeAudioToBuffer data, -1 ≤ q ∧ q < 1)
    ∧ decodeAudioToBuffer [0, 0, 255, 127, 0, 128] = [0, 32767 / 32768, -1] := by
  refine ⟨?_, ?_, ?_, by norm_num [decodeAudioToBuffer, bytesToInt16, toInt16]⟩
  · simp only [decodeAudioToBuffer, List.length_map, bytesToInt16_length, hlen]
    omega
  · intro i lo hi h1 h2
    simp only [decodeAudioToBuffer, List.getElem?_map,
      bytesToInt16_getElem? data i lo hi h1 h2, Option.map_some']
  · intro q hq
    simp only [decodeAudioToBuffer, List.mem_map] at hq
    obtain ⟨v, hv, rfl⟩ := hq
    have hb := bytesToInt16_mem data hbytes v hv
    exact sample_range v hb.1 hb.2

/-- Witness for C1 at the spec's example buffer. -/
theorem decoder_even_buffer_spec_witness :
    (decodeAudioToBuffer [0, 0, 255, 127, 0, 128]).length = 3
    ∧ decodeAudioToBuffer [0, 0, 255, 127, 0, 128] = [0, 32767 / 32768, -1] :=
  ⟨(decoder_even_buffer_spec [0, 0, 255, 127, 0, 128] 3 (by decide) (by decide)).1,
   (decoder_even_buffer_spec [0, 0, 255, 127, 0, 128] 3 (by decide) (by decide)).2.2.2⟩

/-- C2: a buffer of odd length `2 * k + 1` decodes to exactly the samples
of its first `2 * k` bytes — the trailing partial frame is dropped by the
floor division of the byte length, and no error is possible (the decoder
is a total function yielding `k` samples). -/
theorem decoder_odd_truncation (data : List Nat) (k : Nat)
    (h : data.length = 2 * k + 1) :
    decodeAudioToBuffer data = decodeAudioToBuffer (data.take (2 * k))
    ∧ (decodeAudioToBuffer data).length = k := by
  constructor
  · simp only [decodeAudioToBuffer]
    rw [bytesToInt16_take data k h]
  · simp only [decodeAudioToBuffer, List.length_map, bytesToInt16_length, h]
    omega

/-- Witness for C2 at a three-byte buffer. -/
theorem decoder_odd_truncation_witness :
    (decodeAudioToBuffer [0, 0, 7] = decodeAudioToBuffer ([0, 0, 7].take 2))
    ∧ (decodeAudioToBuffer [0, 0, 7]).length = 1 :=
  decoder_odd_truncation [0, 0, 7] 1 (by decide)

/-! ## Claim C3: the parser performs no schema validation -/

/-- C3 counterexample: a raw response whose brace span parses to a JSON
object with none of the required fields (`context`, `characters`,
`script`) makes `extractJSON` return that object successfully — no
SchemaViolation-style failure occurs — and `researchHistory`'s spread
passes it into a scenario record still lacking `context`. -/
theorem extractJSON_missing_fields_ok :
    extractJSON "Resultado: \x7b\"foo\": \"bar\"\x7d"
      = .ok (Json.obj [("foo", Json.str "bar")])
    ∧ (Json.obj [("foo", Json.str "bar")]).getField "context" = none
    ∧ (Json.obj [("foo", Json.str "bar")]).getField "characters" = none
    ∧ (Json.obj [("foo", Json.str "bar")]).getField "script" = none
    ∧ (researchScenarioJson (Json.obj [("foo", Json.str "bar")]) (Json.arr [])
        (Json.str "uuid") Json.null (Json.str "loc") (Json.str "date")).getField
        "context" = none :=
  ⟨rfl, rfl, rfl, rfl, rfl⟩

/-- C3 (amended): `extractJSON` fails only when no brace span exists or
the span fails to parse as JSON; whenever the span parses, the object is
returned as-is with no check of `context`, `characters` or `script`, so a
response missing required fields yields a scenario record lacking them
rather than a SchemaViolation error. -/
theorem extractJSON_no_field_validation (text : String) :
    (∀ s j, braceSlice text.toList = some s → parseJson s = some j →
      extractJSON text = .ok j)
    ∧ (braceSlice text.toList = none →
      extractJSON text = .error "Error en el formato de la crónica.") := by
  constructor
  · intro s j h1 h2
    have h1' : braceSlice text.data = some s := h1
    simp [extractJSON, h1', h2]
  · intro h
    have h' : braceSlice text.data = none := h
    simp [extractJSON, h']

/-- Witness for C3's amended theorem at a concrete wrapped response. -/
theorem extractJSON_no_field_validation_witness :
    extractJSON "eco \x7b\"a\": null\x7d" = .ok (Json.obj [("a", Json.null)]) :=
  (extractJSON_no_field_validation "eco \x7b\"a\": null\x7d").1 _ _ rfl rfl

/-! ## Claim C4: unmatched speakers resolve to slot 0 -/

/-- C4: a script line whose speaker matches no character name is tagged
with voice slot 0 in the assembled transcript (`findIndex` misses, the
`-1` is replaced by 0; part_001's name map likewise falls back to
`Speaker A`), and assembly is total — every script line receives a tag,
so an unmatched speaker can never fail the stage. -/
theorem unmatched_speaker_slot_zero (chars : List Character) (line : DialogueLine)
    (h : ∀ c ∈ chars, c.name ≠ line.speaker) :
    safeIdx chars line.speaker = 0
    ∧ safeNameP1 chars line.speaker = "Speaker A"
    ∧ ∀ script : List DialogueLine,
        (transcriptSlots chars script).length = script.length := by
  have hf : chars.findIdx? (fun c => c.name == line.speaker) = none := by
    rw [List.findIdx?_eq_none_iff]
    intro c hc
    simpa using h c hc
  have hr : chars.reverse.findIdx? (fun c => c.name == line.speaker) = none := by
    rw [List.findIdx?_eq_none_iff]
    intro c hc
    simpa using h c (List.mem_reverse.mp hc)
  refine ⟨?_, ?_, ?_⟩
  · simp [safeIdx, hf]
  · simp [safeNameP1, lastNameIdx, hr]
  · intro script
    simp [transcriptSlots]

/-- Witness for C4 at two characters and an unknown speaker. -/
theorem unmatched_speaker_slot_zero_witness :
    safeIdx [chA, chB] "Xavier" = 0 ∧ safeNameP1 [chA, chB] "Xavier" = "Speaker A" :=
  ⟨(unmatched_speaker_slot_zero [chA, chB] ⟨"Xavier", "t", "t"⟩ (by decide)).1,
   (unmatched_speaker_slot_zero [chA, chB] ⟨"Xavier", "t", "t"⟩ (by decide)).2.1⟩

/-! ## Claim C5: the voice configuration and the transcript's slots -/

/-- C5 counterexample: with two characters, part_000's speaker-voice
configuration holds three pairs (narrator plus both characters), not at
most two; and with three characters, a line spoken by the third is tagged
with slot 2 — the third character's own slot — so the transcript is not
confined to the first two characters' slots. -/
theorem voice_config_exceeds_two :
    (speakerVoiceConfigs000 [chA, chB]).length = 3
    ∧ ¬ (speakerVoiceConfigs000 [chA, chB]).length ≤ 2
    ∧ transcriptSlots [chA, chB, chC] [lineC] = [2] := by
  exact ⟨rfl, by decide, rfl⟩

/-- C5 (amended): part_000's configuration has `1 + min 2 n` pairs — a
narrator pair plus one pair per character of the first two, hence up to
three — while the second App.tsx variant's configuration has at most two;
characters beyond the first two never contribute a configuration pair,
but each transcript line is tagged with the unclamped `findIndex` of its
speaker (0 when unmatched), which can name a slot past the first two. -/
theorem voice_config_structure (chars : List Character) :
    (speakerVoiceConfigs000 chars).length = 1 + min 2 chars.length
    ∧ (speakerVoiceConfigsApp chars).length ≤ 2
    ∧ (∀ cfg ∈ (speakerVoiceConfigs000 chars).tail,
        ∃ p ∈ (chars.take 2).enum, cfg = ⟨"Char" ++ toString p.1, p.2.voice.toLower⟩)
    ∧ (∀ sp, safeIdx chars sp = 0
        ∨ chars.findIdx? (fun c => c.name == sp) = some (safeIdx chars sp)) := by
  refine ⟨?_, ?_, ?_, ?_⟩
  · simp only [speakerVoiceConfigs000, List.length_cons, List.length_map,
      List.enum_length, List.length_take]
    omega
  · simp only [speakerVoiceConfigsApp]
    split <;> simp_all [List.enum_length, List.length_take]
    omega
  · intro cfg hcfg
    simp only [speakerVoiceConfigs000, List.tail_cons, List.mem_map] at hcfg
    obtain ⟨p, hp, rfl⟩ := hcfg
    exact ⟨p, hp, rfl⟩
  · intro sp
    rcases hfi : chars.findIdx? (fun c => c.name == sp) with _ | i
    · left
      simp [safeIdx, hfi]
    · right
      simp [safeIdx, hfi]

/-- Witness for C5's amended theorem at a single character. -/
theorem voice_config_structure_witness :
    (speakerVoiceConfigs000 [chA]).length = 1 + min 2 [chA].length
    ∧ (speakerVoiceConfigsApp [chA]).length ≤ 2
    ∧ (safeIdx [chA] "Ana" = 0
        ∨ [chA].findIdx? (fun c => c.name == "Ana") = some (safeIdx [chA] "Ana")) :=
  ⟨(voice_config_structure [chA]).1, (voice_config_structure [chA]).2.1,
   (voice_config_structure [chA]).2.2.2 "Ana"⟩

/-! ## Helper lemmas: the media phase preserves the run's outcome -/

theorem applyMedia_error (s : AppState) (e : MediaEvent) :
    (applyMedia s e).error = s.error := by
  rcases e with r | ⟨i, u⟩
  · rcases r with _ | buf <;> rfl
  · rcases u with _ | url
    · rfl
    · rcases hs : s.scenario with _ | sc <;> simp [applyMedia, hs]

theorem applyMedia_loading (s : AppState) (e : MediaEvent) :
    (applyMedia s e).loading = s.loading := by
  rcases e with r | ⟨i, u⟩
  · rcases r with _ | buf <;> rfl
  · rcases u with _ | url
    · rfl
    · rcases hs : s.scenario with _ | sc <;> simp [applyMedia, hs]

theorem applyMedia_scenario_isSome (s : AppState) (e : MediaEvent) :
    (applyMedia s e).scenario.isSome = s.scenario.isSome := by
  rcases e with r | ⟨i, u⟩
  · rcases r with _ | buf <;> rfl
  · rcases u with _ | url
    · rfl
    · rcases hs : s.scenario with _ | sc <;> simp [applyMedia, hs]

theorem foldl_applyMedia_error : ∀ (l : List MediaEvent) (s : AppState),
    (l.foldl applyMedia s).error = s.error
  | [], _ => rfl
  | e :: rest, s => by
    rw [List.foldl_cons, foldl_applyMedia_error rest, applyMedia_error]

theorem foldl_applyMedia_loading : ∀ (l : List MediaEvent) (s : AppState),
    (l.foldl applyMedia s).loading = s.loading
  | [], _ => rfl
  | e :: rest, s => by
    rw [List.foldl_cons, foldl_applyMedia_loading rest, applyMedia_loading]

theorem foldl_applyMedia_scenario_isSome : ∀ (l : List MediaEvent) (s : AppState),
    (l.foldl applyMedia s).scenario.isSome = s.scenario.isSome
  | [], _ => rfl
  | e :: rest, s => by
    rw [List.foldl_cons, foldl_applyMedia_scenario_isSome rest,
      applyMedia_scenario_isSome]

theorem runTrace_settles (s : AppState) (order : List MediaEvent) :
    runTrace s (order.map TraceEv.settle) = order.foldl applyMedia s := by
  rw [runTrace, List.foldl_map]
  rfl

/-! ## Claim C6: the all-settle join -/

/-- C6 (amended): in part_000's `handleSearch` the run is declared
complete only after every launched media call settles — for every
settlement order the trace's final event is the idle transition and every
settlement precedes it — and no combination of media failures sets the
error or removes the scenario; the first App.tsx variant is equally
failure-tolerant (idle loading, no error, scenario kept, for any
outcomes), but it does not wait: its idle transition precedes the
settlements. -/
theorem media_join_completion (data : HistoricalScenario)
    (order : List MediaEvent) (s0 : AppState) :
    (part000Trace (.ok data) order).getLast? = some (.setLoading "idle")
    ∧ (∀ e ∈ order, TraceEv.settle e ∈ (part000Trace (.ok data) order).dropLast)
    ∧ (runTrace s0 (part000Trace (.ok data) order)).loading = "idle"
    ∧ (runTrace s0 (part000Trace (.ok data) order)).error = none
    ∧ (runTrace s0 (part000Trace (.ok data) order)).scenario.isSome = true
    ∧ (runTrace s0 (appTrace (.ok data) order)).loading = "idle"
    ∧ (runTrace s0 (appTrace (.ok data) order)).error = none
    ∧ (runTrace s0 (appTrace (.ok data) order)).scenario.isSome = true := by
  have runTrace_append : ∀ (s : AppState) (t u : List TraceEv),
      runTrace s (t ++ u) = runTrace (runTrace s t) u := by
    intro s t u
    simp [runTrace, List.foldl_append]
  have hshape : part000Trace (.ok data) order =
      ((clearEvents ++ [.setScenario (some data), .setLoading "media"])
        ++ order.map .settle) ++ [.setLoading "idle"] := by
    simp [part000Trace, clearEvents]
  have hfull : runTrace s0 (part000Trace (.ok data) order)
      = { order.foldl applyMedia
            { loading := "media", scenario := some data, audio := none, error := none }
          with loading := "idle" } := by
    rw [hshape, runTrace_append, runTrace_append, runTrace_settles]
    rfl
  have hshape2 : appTrace (.ok data) order =
      (clearEvents
          ++ [.setScenario (some data), .setLoading "media", .setLoading "idle"])
        ++ order.map .settle := by
    simp [appTrace, clearEvents]
  have hfull2 : runTrace s0 (appTrace (.ok data) order)
      = order.foldl applyMedia
          { loading := "idle", scenario := some data, audio := none, error := none } := by
    rw [hshape2, runTrace_append, runTrace_settles]
    rfl
  refine ⟨?_, ?_, ?_, ?_, ?_, ?_, ?_, ?_⟩
  · rw [hshape, List.getLast?_concat]
  · intro e he
    rw [hshape, List.dropLast_concat]
    exact List.mem_append_right _ (List.mem_map_of_mem _ he)
  · rw [hfull]
  · rw [hfull]
    show (order.foldl applyMedia _).error = none
    rw [foldl_applyMedia_error]
  · rw [hfull]
    show (order.foldl applyMedia _).scenario.isSome = true
    rw [foldl_applyMedia_scenario_isSome]
    rfl
  · rw [hfull2, foldl_applyMedia_loading]
  · rw [hfull2, foldl_applyMedia_error]
  · rw [hfull2, foldl_applyMedia_scenario_isSome]
    rfl

/-- Witness for C6's amended theorem: the research succeeds, the audio
call fails and one of two portraits fails, yet the run ends idle with no
error and the scenario still present. -/
theorem media_join_completion_witness :
    TraceEv.settle (.audioDone none)
      ∈ (part000Trace (.ok exQ2) (mediaEvents none [some "u0", none])).dropLast
    ∧ (runTrace idleState
        (part000Trace (.ok exQ2) (mediaEvents none [some "u0", none]))).error = none
    ∧ (runTrace idleState
        (part000Trace (.ok exQ2) (mediaEvents none [some "u0", none]))).loading = "idle" :=
  ⟨(media_join_completion exQ2 (mediaEvents none [some "u0", none]) idleState).2.1
      (.audioDone none) (by decide),
   (media_join_completion exQ2 (mediaEvents none [some "u0", none]) idleState).2.2.2.1,
   (media_join_completion exQ2 (mediaEvents none [some "u0", none]) idleState).2.2.1⟩

/-- C6 counterexample: in the first App.tsx variant's `handleSearch` the
loading state returns to idle before the media calls settle — in its
trace the final event is the audio settlement, strictly after the idle
transition — so the run is not declared complete "only after every media
call has settled". -/
theorem app_idle_before_media_settle :
    (appTrace (.ok exQ1) [.audioDone none]).getLast?
      = some (.settle (.audioDone none))
    ∧ TraceEv.setLoading "idle" ∈ (appTrace (.ok exQ1) [.audioDone none]).dropLast := by
  constructor
  · rfl
  · decide

/-! ## Claim C7: stale results are merged without any guard -/

/-- C7: the code has no generation token or request-identity check, so a
portrait and an audio result of query Q1 that settle after query Q2's
research has resolved are merged into Q2's visible state: Q2's character
at index 0 acquires Q1's avatar URL and the audio slot holds Q1's buffer.
Evaluated at the failing interleaving, contradicting the claim that no
field from Q1 can appear after Q2's research resolves. -/
theorem stale_query_merges_into_new_state :
    (staleRun exQ1 exQ2 [.portraitDone 0 (some "stale-avatar"), .audioDone (some [0])]
        idleState).scenario
      = some (patchAvatar exQ2 0 "stale-avatar")
    ∧ (staleRun exQ1 exQ2 [.portraitDone 0 (some "stale-avatar"), .audioDone (some [0])]
        idleState).audio = some [0]
    ∧ (patchAvatar exQ2 0 "stale-avatar").locationInput = "Q2"
    ∧ (patchAvatar exQ2 0 "stale-avatar").characters.map (fun c => c.avatarUrl)
      = [some "stale-avatar", none] :=
  ⟨rfl, rfl, rfl, rfl⟩

/-! ## Helper lemmas: the avatar patch -/

theorem setAvatarAt_length : ∀ (l : List Character) (i : Nat) (url : String),
    (setAvatarAt l i url).length = l.length
  | [], _, _ => rfl
  | _ :: rest, 0, _ => rfl
  | _ :: rest, i + 1, url => by
    simp [setAvatarAt, setAvatarAt_length rest i url]

theorem setAvatarAt_getElem?_self : ∀ (l : List Character) (i : Nat) (url : String)
    (c : Character), l[i]? = some c →
    (setAvatarAt l i url)[i]? = some { c with avatarUrl := some url }
  | [], i, _, _, h => by simp at h
  | a :: rest, 0, url, c, h => by
    simp only [List.getElem?_cons_zero, Option.some.injEq] at h
    subst h
    simp [setAvatarAt]
  | a :: rest, i + 1, url, c, h => by
    simp only [List.getElem?_cons_succ] at h
    simpa [setAvatarAt] using setAvatarAt_getElem?_self rest i url c h

theorem setAvatarAt_getElem?_other : ∀ (l : List Character) (i j : Nat) (url : String),
    j ≠ i → (setAvatarAt l i url)[j]? = l[j]?
  | [], _, _, _, _ => by simp [setAvatarAt]
  | a :: rest, 0, j, url, hne => by
    cases j with
    | zero => exact absurd rfl hne
    | succ k => simp [setAvatarAt]
  | a :: rest, i + 1, j, url, hne => by
    cases j with
    | zero => simp [setAvatarAt]
    | succ k =>
      simp only [setAvatarAt, List.getElem?_cons_succ]
      exact setAvatarAt_getElem?_other rest i k url (by omega)

/-! ## Claim C8: the portrait merge is index-addressed and immediate -/

/-- C8: when portrait `i` resolves with a URL, the merge changes only
`characters[i].avatarUrl`: the character at `i` keeps its other fields,
every other index is untouched, every other scenario field (context,
script, sources, intro, accent, id, timestamp, inputs) is unchanged, the
character count is preserved — and the patch is the direct effect of that
one settlement on the current state, leaving the audio slot and loading
alone, so it waits for no other call. -/
theorem portrait_patch_frame (sc : HistoricalScenario) (i : Nat) (url : String)
    (c : Character) (hc : sc.characters[i]? = some c) :
    (patchAvatar sc i url).characters[i]? = some { c with avatarUrl := some url }
    ∧ (∀ j, j ≠ i → (patchAvatar sc i url).characters[j]? = sc.characters[j]?)
    ∧ (patchAvatar sc i url).characters.length = sc.characters.length
    ∧ (patchAvatar sc i url).context = sc.context
    ∧ (patchAvatar sc i url).script = sc.script
    ∧ (patchAvatar sc i url).sources = sc.sources
    ∧ (patchAvatar sc i url).narratorIntro = sc.narratorIntro
    ∧ (patchAvatar sc i url).accentProfile = sc.accentProfile
    ∧ (patchAvatar sc i url).id = sc.id
    ∧ (patchAvatar sc i url).timestamp = sc.timestamp
    ∧ (patchAvatar sc i url).locationInput = sc.locationInput
    ∧ (patchAvatar sc i url).dateInput = sc.dateInput
    ∧ (∀ s : AppState, s.scenario = some sc →
        (applyMedia s (.portraitDone i (some url))).scenario
          = some (patchAvatar sc i url)
        ∧ (applyMedia s (.portraitDone i (some url))).audio = s.audio
        ∧ (applyMedia s (.portraitDone i (some url))).loading = s.loading) := by
  refine ⟨setAvatarAt_getElem?_self sc.characters i url c hc,
    fun j hj => setAvatarAt_getElem?_other sc.characters i j url hj,
    setAvatarAt_length sc.characters i url,
    rfl, rfl, rfl, rfl, rfl, rfl, rfl, rfl, rfl, ?_⟩
  intro s hs
  refine ⟨?_, ?_, ?_⟩ <;> simp [applyMedia, hs]

/-- Witness for C8: portrait 1 of a three-character scenario resolves
first; character 1 is patched, characters 0 and 2 are untouched. -/
theorem portrait_patch_frame_witness :
    (patchAvatar exScenario3 1 "u").characters[1]?
      = some { chB with avatarUrl := some "u" }
    ∧ (patchAvatar exScenario3 1 "u").characters[0]? = exScenario3.characters[0]?
    ∧ (patchAvatar exScenario3 1 "u").characters[2]? = exScenario3.characters[2]? :=
  ⟨(portrait_patch_frame exScenario3 1 "u" chB (by decide)).1,
   (portrait_patch_frame exScenario3 1 "u" chB (by decide)).2.1 0 (by decide),
   (portrait_patch_frame exScenario3 1 "u" chB (by decide)).2.1 2 (by decide)⟩

/-! ## Claim C9: the recent-history update -/

/-- C9: after a successful search the stored history holds at most five
entries, the new scenario is first, no retained older entry shares its
`locationInput`, and pairwise distinctness of `locationInput` is
preserved when it held before. -/
theorem history_bounded_dedup (data : HistoricalScenario) (loc : String)
    (history : List HistoricalScenario)
    (hloc : data.locationInput = loc)
    (hnodup : history.Pairwise (fun a b => a.locationInput ≠ b.locationInput))
    (_hlen : history.length ≤ 5) :
    (updateHistory data loc history).length ≤ 5
    ∧ (updateHistory data loc history).head? = some data
    ∧ (∀ h ∈ (updateHistory data loc history).tail,
        h.locationInput ≠ data.locationInput)
    ∧ (updateHistory data loc history).Pairwise
        (fun a b => a.locationInput ≠ b.locationInput) := by
  have hcons : updateHistory data loc history
      = data :: (history.filter (fun h => h.locationInput ≠ loc)).take 4 := rfl
  have hmemfil : ∀ h ∈ (history.filter (fun h => h.locationInput ≠ loc)).take 4,
      h.locationInput ≠ loc := by
    intro h hm
    have := List.mem_of_mem_take hm
    have := List.mem_filter.mp this
    simpa using this.2
  refine ⟨?_, ?_, ?_, ?_⟩
  · simp only [updateHistory, List.length_take]
    omega
  · rw [hcons]
    rfl
  · intro h hm
    rw [hcons] at hm
    rw [hloc]
    exact hmemfil h hm
  · rw [hcons, List.pairwise_cons]
    constructor
    · intro b hb
      rw [hloc]
      exact fun hbe => hmemfil b hb hbe.symm
    · exact ((hnodup.filter _).sublist (List.take_sublist _ _))

/-- Witness for C9 at a two-entry history containing a duplicate of the
new location. -/
theorem history_bounded_dedup_witness :
    (updateHistory exQ2 "Q2" [exQ1, mkScenario "Q2" [] []]).length ≤ 5
    ∧ (updateHistory exQ2 "Q2" [exQ1, mkScenario "Q2" [] []]).head? = some exQ2
    ∧ (updateHistory exQ2 "Q2" [exQ1, mkScenario "Q2" [] []]).Pairwise
        (fun a b => a.locationInput ≠ b.locationInput) :=
  ⟨(history_bounded_dedup exQ2 "Q2" [exQ1, mkScenario "Q2" [] []] rfl
      (by decide) (by decide)).1,
   (history_bounded_dedup exQ2 "Q2" [exQ1, mkScenario "Q2" [] []] rfl
      (by decide) (by decide)).2.1,
   (history_bounded_dedup exQ2 "Q2" [exQ1, mkScenario "Q2" [] []] rfl
      (by decide) (by decide)).2.2.2⟩

/-! ## Helper lemmas: the chat rate limit -/

theorem chatStep_count (s : ChatState) (a : ChatAction) :
    (chatStep s a).messageCount
      = s.messageCount
        + (if a = ChatAction.send ∧ sendBlocked s = false then 1 else 0) := by
  cases a with
  | typeInput t => simp [chatStep]
  | selectFigure f => simp [chatStep]
  | clearChat => simp [chatStep]
  | send =>
    simp only [chatStep, handleSendMessage]
    by_cases hb : sendBlocked s = true
    · simp [hb]
    · have hb' : sendBlocked s = false := by simpa using hb
      simp [hb']

theorem chatStep_count_le (s : ChatState) (a : ChatAction)
    (h : s.messageCount ≤ 5) : (chatStep s a).messageCount ≤ 5 := by
  rw [chatStep_count]
  by_cases hb : sendBlocked s = false
  · have : ¬ 5 ≤ s.messageCount := by
      intro hle
      have hbt : sendBlocked s = true := by simp [sendBlocked, hle]
      rw [hbt] at hb
      exact Bool.noConfusion hb
    split <;> omega
  · simp [hb]
    omega

theorem chatRun_count : ∀ (acts : List ChatAction) (s : ChatState),
    (chatRun s acts).messageCount = s.messageCount + sendCount s acts
  | [], s => by simp [chatRun, sendCount]
  | a :: rest, s => by
    have ih := chatRun_count rest (chatStep s a)
    have hstep : chatRun s (a :: rest) = chatRun (chatStep s a) rest := rfl
    rw [hstep, ih, chatStep_count, sendCount]
    omega

theorem chatRun_count_le : ∀ (acts : List ChatAction) (s : ChatState),
    s.messageCount ≤ 5 → (chatRun s acts).messageCount ≤ 5
  | [], _, h => h
  | a :: rest, s, h =>
    chatRun_count_le rest (chatStep s a) (chatStep_count_le s a h)

/-! ## Claim C10: the five-message session limit -/

/-- C10: `handleSendMessage` is a no-op whenever the input is empty, the
count has reached 5, or no figure is selected; an unblocked send appends
exactly one user message and increments the count by exactly 1; and over
any action sequence from a state within the limit the count stays at
most 5 and equals the starting count plus the number of effective sends —
so a session starting from the reset state sends at most five messages. -/
theorem chat_message_limit (s : ChatState) (acts : List ChatAction)
    (hinv : s.messageCount ≤ 5) :
    (sendBlocked s = true → handleSendMessage s = s)
    ∧ (sendBlocked s = false →
        (handleSendMessage s).messageCount = s.messageCount + 1
        ∧ (handleSendMessage s).chatHistory = s.chatHistory ++ [s.currentInput])
    ∧ (chatRun s acts).messageCount = s.messageCount + sendCount s acts
    ∧ (chatRun s acts).messageCount ≤ 5
    ∧ sendCount s acts ≤ 5 - s.messageCount := by
  have h3 := chatRun_count acts s
  have h4 := chatRun_count_le acts s hinv
  refine ⟨?_, ?_, h3, h4, by omega⟩
  · intro h
    simp [handleSendMessage, h]
  · intro h
    simp [handleSendMessage, h]

/-- Witness for C10: from the reset state, a blocked send is a no-op and
a session of three actions stays within the limit. -/
theorem chat_message_limit_witness :
    handleSendMessage resetChatState = resetChatState
    ∧ (chatRun resetChatState
        [ChatAction.typeInput "hola", ChatAction.selectFigure (some "Frida"),
         ChatAction.send]).messageCount ≤ 5 :=
  ⟨(chat_message_limit resetChatState [] (by decide)).1 (by decide),
   (chat_message_limit resetChatState
      [ChatAction.typeInput "hola", ChatAction.selectFigure (some "Frida"),
       ChatAction.send] (by decide)).2.2.2.1⟩

end Ecos
